import Mathlib

/-!
Verification of `src/PyVCF_titv/titv.py` (ti/tv counter over VCF records).

The script keeps three global counters (`ti`, `tv`, `num_records`), classifies
each VCF record as a transition or a transversion, prints a progress line every
1000 loop iterations and a final summary line.  We embed the record-processing
loop (`process_file`), the accounting function (`account_rec_native`) and the
reporting function (`print_totals`) shallowly: the stream of records of a file
becomes a list of (reference allele, first alternate allele) pairs, the mutable
globals become an explicit state record, printed lines become `Snapshot`
values, and the two uncaught Python exceptions of the script (`StopIteration`
raised by `vcf_reader.next()` at end of stream, `ZeroDivisionError` raised by
`float(ti)/float(tv)` when `tv == 0`) become a `Crash` outcome.  IEEE float
division is modelled as exact rational division.
-/

namespace Titv

/-- The three possible classifications of a (ref, alt) allele pair. -/
inductive SubstKind where
  | Transition
  | Transversion
  | NotApplicable
deriving DecidableEq

/-- The four upper-case nucleotide symbols. -/
def acgt : List Char := ['A', 'C', 'G', 'T']

/-- A character that denotes a standard nucleotide, case-insensitively. -/
def isACGT (c : Char) : Prop := c.toUpper ∈ acgt

instance (c : Char) : Decidable (isACGT c) := by
  unfold isACGT; infer_instance

/-- The four transition pairs of the table in spec section 4.1. -/
def transitionPairs : List (Char × Char) :=
  [('A', 'G'), ('G', 'A'), ('C', 'T'), ('T', 'C')]

/-- Modelled from the spec: the `classify(ref_allele, alt_allele)` contract of
spec section 4.1.  The predicates the source's `account_rec_native` consults
(`rec.is_snp`, `rec.is_transition`) live in the external PyVCF library, which
is not part of this repository, so the classification is taken from the
spec's own allele-based table: `NotApplicable` unless both alleles are single
nucleotide characters among A/C/G/T (case-insensitive); `NotApplicable` when
the two alleles coincide; otherwise `Transition` exactly for the pairs of
`transitionPairs` and `Transversion` for every other pair. -/
def classify (ref_allele alt_allele : String) : SubstKind :=
  match ref_allele.toList, alt_allele.toList with
  | [r], [a] =>
    if isACGT r ∧ isACGT a then
      if r.toUpper = a.toUpper then SubstKind.NotApplicable
      else if (r.toUpper, a.toUpper) ∈ transitionPairs then SubstKind.Transition
      else SubstKind.Transversion
    else SubstKind.NotApplicable
  | _, _ => SubstKind.NotApplicable

/-- The three global counters of titv.py (`ti`, `tv`, `num_records`). -/
structure TitvState where
  ti : Nat
  tv : Nat
  num_records : Nat
deriving DecidableEq

/-- The zero-initialized globals at process start. -/
def initState : TitvState := ⟨0, 0, 0⟩

/-- Embedding of `account_rec_native` (titv.py lines 14-21): skip the record
when it is not a SNP, otherwise increment `ti` for a transition and `tv` for
any other SNP.  The SNP / transition tests are delegated by the source to the
external PyVCF library and are therefore taken from `classify` (see its
doc comment). -/
def account_rec_native (rec : String × String) (s : TitvState) : TitvState :=
  match classify rec.1 rec.2 with
  | SubstKind.NotApplicable => s
  | SubstKind.Transition => { s with ti := s.ti + 1 }
  | SubstKind.Transversion => { s with tv := s.tv + 1 }

/-- One printed report line: the optional `num records=` field, then
`tot=`, `ti=`, `tv=` and the `ti/tv=` value. -/
structure Snapshot where
  iField : Option Nat
  tot : Nat
  ti : Nat
  tv : Nat
  ratioVal : ℚ
deriving DecidableEq

/-- Embedding of `print_totals` (titv.py lines 23-29): `ratio =
float(ti)/float(tv)` raises `ZeroDivisionError` when `tv == 0` (modelled as
`Except.error ()`); otherwise one line is printed and flushed.  The function
only reads the globals, so the state it leaves behind is its input state. -/
def print_totals (i : Option Nat) (s : TitvState) :
    Except Unit (TitvState × Snapshot) :=
  if s.tv = 0 then Except.error ()
  else Except.ok (s,
    { iField := i, tot := s.num_records, ti := s.ti, tv := s.tv,
      ratioVal := (s.ti : ℚ) / (s.tv : ℚ) })

/-- The ways a file-processing loop can terminate, besides the `break` taken
when `nlimit` is reached: the two uncaught Python exceptions of the script. -/
inductive Crash where
  /-- `vcf_reader.next()` raised `StopIteration` at end of stream. -/
  | stopIteration
  /-- `print_totals` raised `ZeroDivisionError` (`tv == 0`). -/
  | zeroDivision
deriving DecidableEq

/-- The `num_records += 1` statement at the top of each loop iteration. -/
def record_seen (s : TitvState) : TitvState :=
  { s with num_records := s.num_records + 1 }

/-- The `if i % 1000 == 0: print_totals(i)` statement of the loop: no line is
emitted off the cadence; on the cadence, `print_totals` either crashes or
emits one line. -/
def printStep (i1 : Nat) (s1 : TitvState) :
    Except Unit (TitvState × List Snapshot) :=
  if i1 % 1000 = 0 then
    match print_totals (some i1) s1 with
    | Except.error e => Except.error e
    | Except.ok (s2, snap) => Except.ok (s2, [snap])
  else Except.ok (s1, [])

/-- The `if (nlimit is not None and i >= nlimit): break` test. -/
def nlimitHit : Option Nat → Nat → Bool
  | none, _ => false
  | some n, i => decide (n ≤ i)

/-- Embedding of the `while True` loop of `process_file` (titv.py lines
37-47), one constructor case per shape of the remaining record stream.  Each
iteration increments `num_records` and the local counter `i`, runs the
cadenced progress print (which may crash with `ZeroDivisionError`), breaks
when `nlimit` is reached, and otherwise fetches the next record — raising
`StopIteration` when the stream is exhausted — and accounts it.  The result is
the final state, the lines printed, and the crash if one occurred. -/
def fileLoop (nl : Option Nat) : List (String × String) → Nat → TitvState →
    List Snapshot → TitvState × List Snapshot × Option Crash
  | [], i, s, out =>
    match printStep (i + 1) (record_seen s) with
    | Except.error _ => (record_seen s, out, some Crash.zeroDivision)
    | Except.ok (s2, lines) =>
      if nlimitHit nl (i + 1) then (s2, out ++ lines, none)
      else (s2, out ++ lines, some Crash.stopIteration)
  | r :: rest, i, s, out =>
    match printStep (i + 1) (record_seen s) with
    | Except.error _ => (record_seen s, out, some Crash.zeroDivision)
    | Except.ok (s2, lines) =>
      if nlimitHit nl (i + 1) then (s2, out ++ lines, none)
      else fileLoop nl rest (i + 1) (account_rec_native r s2) (out ++ lines)

/-- Embedding of `process_file` (titv.py lines 32-47): run the loop on a
file's record stream with the per-file iteration counter `i` starting at 0
and nothing printed yet. -/
def process_file (nl : Option Nat) (recs : List (String × String))
    (s : TitvState) : TitvState × List Snapshot × Option Crash :=
  fileLoop nl recs 0 s []

/-- The `for fname in args.filenames: process_file(fname, args.nlimit)` loop
(titv.py lines 62-63): files are processed in order; an uncaught exception in
one file aborts the whole run. -/
def runFiles (nl : Option Nat) : List (List (String × String)) → TitvState →
    TitvState × List Snapshot × Option Crash
  | [], s => (s, [], none)
  | f :: fs, s =>
    match process_file nl f s with
    | (s1, out1, some c) => (s1, out1, some c)
    | (s1, out1, none) =>
      let rest := runFiles nl fs s1
      (rest.1, out1 ++ rest.2.1, rest.2.2)

/-- The whole run (titv.py lines 62-65): process every file from the
zero-initialized globals, then — when no file crashed — print the final
summary line `print_totals(None)`, which itself crashes when `tv == 0`. -/
def main_run (nl : Option Nat) (files : List (List (String × String))) :
    TitvState × List Snapshot × Option Crash :=
  match runFiles nl files initState with
  | (s, out, some c) => (s, out, some c)
  | (s, out, none) =>
    match print_totals none s with
    | Except.error _ => (s, out, some Crash.zeroDivision)
    | Except.ok (s1, snap) => (s1, out ++ [snap], none)

/-- A file of `n` SNP records alternating (A,G), (G,T), (A,G), ...
(record 1 is the transition (A,G), record 2 the transversion (G,T)). -/
def altRecs (n : Nat) : List (String × String) :=
  (List.range n).map fun j => if j % 2 = 0 then ("A", "G") else ("G", "T")

/-- A snapshot without its ti/tv-ratio field (the four integer fields). -/
def snapView (sn : Snapshot) : Option Nat × Nat × Nat × Nat :=
  (sn.iField, sn.tot, sn.ti, sn.tv)

/-- The line printed by the progress report of the iteration with per-file
counter `i + 1`, entered in state `s` (when it does not crash). -/
def stepSnap (i : Nat) (s : TitvState) : Snapshot :=
  { iField := some (i + 1), tot := s.num_records + 1, ti := s.ti, tv := s.tv,
    ratioVal := (s.ti : ℚ) / (s.tv : ℚ) }

/-- The multiples of 1000 among the `k` consecutive counter values
`a, a+1, ..., a+k-1`: the per-file iteration counts at which the `i % 1000 ==
0` test fires during `k` loop iterations whose counter starts at `a`. -/
def cadence : Nat → Nat → List Nat
  | _, 0 => []
  | a, k + 1 => (if a % 1000 = 0 then [a] else []) ++ cadence (a + 1) k

/-! ## Helper lemmas -/

@[simp] lemma record_seen_ti (s : TitvState) : (record_seen s).ti = s.ti := rfl

@[simp] lemma record_seen_tv (s : TitvState) : (record_seen s).tv = s.tv := rfl

@[simp] lemma record_seen_num (s : TitvState) :
    (record_seen s).num_records = s.num_records + 1 := rfl

lemma print_totals_ok (i : Option Nat) (s : TitvState) (h : s.tv ≠ 0) :
    print_totals i s = Except.ok (s,
      { iField := i, tot := s.num_records, ti := s.ti, tv := s.tv,
        ratioVal := (s.ti : ℚ) / (s.tv : ℚ) }) := by
  simp [print_totals, h]

lemma printStep_eq (i1 : Nat) (s1 : TitvState) :
    printStep i1 s1 =
      (if i1 % 1000 = 0 then
        (if s1.tv = 0 then Except.error ()
         else Except.ok (s1,
          [{ iField := some i1, tot := s1.num_records, ti := s1.ti, tv := s1.tv,
             ratioVal := (s1.ti : ℚ) / (s1.tv : ℚ) }]))
       else Except.ok (s1, [])) := by
  unfold printStep print_totals
  by_cases hc : i1 % 1000 = 0 <;> by_cases htv : s1.tv = 0 <;> simp [hc, htv]

lemma account_titv_le (r : String × String) (s : TitvState) :
    (account_rec_native r s).ti + (account_rec_native r s).tv ≤ s.ti + s.tv + 1 ∧
      (account_rec_native r s).num_records = s.num_records := by
  cases h : classify r.1 r.2 <;> simp [account_rec_native, h] <;> omega

lemma account_congr (r : String × String) {s t : TitvState}
    (hti : s.ti = t.ti) (htv : s.tv = t.tv) :
    (account_rec_native r s).ti = (account_rec_native r t).ti ∧
      (account_rec_native r s).tv = (account_rec_native r t).tv := by
  cases h : classify r.1 r.2 <;> simp [account_rec_native, h, hti, htv]

/-- One unfolding of the loop on an exhausted stream, with the iteration
pre-amble (count, cadenced print, limit check) resolved into plain ifs. -/
lemma fileLoop_nil_eq (nl : Option Nat) (i : Nat) (s : TitvState)
    (out : List Snapshot) :
    fileLoop nl [] i s out =
      if (i + 1) % 1000 = 0 then
        (if s.tv = 0 then (record_seen s, out, some Crash.zeroDivision)
         else if nlimitHit nl (i + 1) then
           (record_seen s, out ++ [stepSnap i s], none)
         else (record_seen s, out ++ [stepSnap i s], some Crash.stopIteration))
      else if nlimitHit nl (i + 1) then (record_seen s, out, none)
      else (record_seen s, out, some Crash.stopIteration) := by
  by_cases hc : (i + 1) % 1000 = 0 <;> by_cases htv : s.tv = 0 <;>
    by_cases hn : nlimitHit nl (i + 1) = true <;>
    simp [fileLoop, printStep_eq, record_seen, stepSnap, hc, htv, hn]

/-- One unfolding of the loop when a record remains to be fetched. -/
lemma fileLoop_cons_eq (nl : Option Nat) (r : String × String)
    (rest : List (String × String)) (i : Nat) (s : TitvState)
    (out : List Snapshot) :
    fileLoop nl (r :: rest) i s out =
      if (i + 1) % 1000 = 0 then
        (if s.tv = 0 then (record_seen s, out, some Crash.zeroDivision)
         else if nlimitHit nl (i + 1) then
           (record_seen s, out ++ [stepSnap i s], none)
         else fileLoop nl rest (i + 1) (account_rec_native r (record_seen s))
           (out ++ [stepSnap i s]))
      else if nlimitHit nl (i + 1) then (record_seen s, out, none)
      else fileLoop nl rest (i + 1) (account_rec_native r (record_seen s)) out := by
  by_cases hc : (i + 1) % 1000 = 0 <;> by_cases htv : s.tv = 0 <;>
    by_cases hn : nlimitHit nl (i + 1) = true <;>
    simp [fileLoop, printStep_eq, record_seen, stepSnap, hc, htv, hn]

/-- The counters invariant is preserved by the whole file loop, whatever the
per-file counter, the limit, and however the loop exits. -/
lemma fileLoop_inv (nl : Option Nat) (recs : List (String × String)) :
    ∀ (i : Nat) (s : TitvState) (out : List Snapshot),
      s.ti + s.tv ≤ s.num_records →
      (fileLoop nl recs i s out).1.ti + (fileLoop nl recs i s out).1.tv ≤
        (fileLoop nl recs i s out).1.num_records := by
  induction recs with
  | nil =>
    intro i s out h
    rw [fileLoop_nil_eq]
    by_cases hc : (i + 1) % 1000 = 0 <;> by_cases htv : s.tv = 0 <;>
      by_cases hn : nlimitHit nl (i + 1) = true <;>
      simp only [hc, htv, hn, if_true, if_false, ite_true, ite_false,
        Bool.false_eq_true, record_seen_ti, record_seen_tv, record_seen_num] <;>
      omega
  | cons r rest ih =>
    intro i s out h
    have hacc := account_titv_le r (record_seen s)
    simp only [record_seen_ti, record_seen_tv, record_seen_num] at hacc
    have hrec : (account_rec_native r (record_seen s)).ti +
        (account_rec_native r (record_seen s)).tv ≤
        (account_rec_native r (record_seen s)).num_records := by omega
    rw [fileLoop_cons_eq]
    by_cases hc : (i + 1) % 1000 = 0 <;> by_cases htv : s.tv = 0 <;>
      by_cases hn : nlimitHit nl (i + 1) = true <;>
      simp only [hc, htv, hn, if_true, if_false, ite_true, ite_false,
        Bool.false_eq_true, record_seen_ti, record_seen_tv, record_seen_num] <;>
      first
        | omega
        | exact ih (i + 1) (account_rec_native r (record_seen s)) _ hrec

/-- The counters invariant is preserved across the whole sequence of files. -/
lemma runFiles_inv (nl : Option Nat) (files : List (List (String × String))) :
    ∀ s : TitvState, s.ti + s.tv ≤ s.num_records →
      (runFiles nl files s).1.ti + (runFiles nl files s).1.tv ≤
        (runFiles nl files s).1.num_records := by
  induction files with
  | nil => intro s h; simpa [runFiles] using h
  | cons f fs ih =>
    intro s h
    have h1 := fileLoop_inv nl f 0 s [] h
    rcases hp : fileLoop nl f 0 s [] with ⟨s1, out1, c⟩
    rw [hp] at h1
    simp only [runFiles, process_file, hp]
    cases c
    · simpa using ih s1 (by simpa using h1)
    · simpa using h1

/-- What being a line of `out ++ [stepSnap i s]` on the cadence gives. -/
lemma mem_out_stepSnap {out : List Snapshot} {i : Nat} {s : TitvState}
    {sn : Snapshot} (hc : (i + 1) % 1000 = 0)
    (hsn : sn ∈ out ++ [stepSnap i s]) :
    sn ∈ out ∨ ∃ j, 0 < j ∧ j % 1000 = 0 ∧ sn.iField = some j ∧
      sn.ratioVal = (sn.ti : ℚ) / (sn.tv : ℚ) := by
  rcases List.mem_append.mp hsn with h | h
  · exact Or.inl h
  · simp only [List.mem_singleton] at h
    subst h
    exact Or.inr ⟨i + 1, Nat.succ_pos i, hc, rfl, rfl⟩

/-- Every line the file loop adds to its output carries a `num records=` field
that is a positive multiple of 1000 — the per-file iteration count at which it
was printed — and a ti/tv value equal to the quotient of its own ti and tv
fields. -/
lemma fileLoop_out_spec (nl : Option Nat) (recs : List (String × String)) :
    ∀ (i : Nat) (s : TitvState) (out : List Snapshot),
      ∀ sn ∈ (fileLoop nl recs i s out).2.1,
        sn ∈ out ∨ ∃ j, 0 < j ∧ j % 1000 = 0 ∧ sn.iField = some j ∧
          sn.ratioVal = (sn.ti : ℚ) / (sn.tv : ℚ) := by
  induction recs with
  | nil =>
    intro i s out sn hsn
    rw [fileLoop_nil_eq] at hsn
    by_cases hc : (i + 1) % 1000 = 0
    · by_cases htv : s.tv = 0
      · simp only [hc, htv, if_true, ite_true] at hsn
        exact Or.inl hsn
      · by_cases hn : nlimitHit nl (i + 1) = true <;>
          simp only [hc, htv, hn, if_true, if_false, ite_true, ite_false,
            Bool.false_eq_true] at hsn <;>
          exact mem_out_stepSnap hc hsn
    · by_cases hn : nlimitHit nl (i + 1) = true <;>
        simp only [hc, hn, if_true, if_false, ite_true, ite_false,
          Bool.false_eq_true] at hsn <;>
        exact Or.inl hsn
  | cons r rest ih =>
    intro i s out sn hsn
    rw [fileLoop_cons_eq] at hsn
    by_cases hc : (i + 1) % 1000 = 0
    · by_cases htv : s.tv = 0
      · simp only [hc, htv, if_true, ite_true] at hsn
        exact Or.inl hsn
      · by_cases hn : nlimitHit nl (i + 1) = true
        · simp only [hc, htv, hn, if_true, if_false, ite_true, ite_false,
            Bool.false_eq_true] at hsn
          exact mem_out_stepSnap hc hsn
        · simp only [hc, htv, hn, if_true, if_false, ite_true, ite_false,
            Bool.false_eq_true] at hsn
          rcases ih (i + 1) (account_rec_native r (record_seen s))
              (out ++ [stepSnap i s]) sn hsn with h | h
          · exact mem_out_stepSnap hc h
          · exact Or.inr h
    · by_cases hn : nlimitHit nl (i + 1) = true
      · simp only [hc, hn, if_true, if_false, ite_true, ite_false,
          Bool.false_eq_true] at hsn
        exact Or.inl hsn
      · simp only [hc, hn, if_true, if_false, ite_true, ite_false,
          Bool.false_eq_true] at hsn
        exact ih (i + 1) (account_rec_native r (record_seen s)) out sn hsn

/-- The sequence of `num records=` fields printed while processing one file
is a function of the record stream, the limit, the starting per-file counter
and the starting ti/tv counters only: it does not depend on `num_records`,
i.e. on how many records earlier files contributed. -/
lemma fileLoop_congr (nl : Option Nat) (recs : List (String × String)) :
    ∀ (i : Nat) (s t : TitvState) (outs outt : List Snapshot),
      s.ti = t.ti → s.tv = t.tv →
      outs.map Snapshot.iField = outt.map Snapshot.iField →
      (fileLoop nl recs i s outs).2.1.map Snapshot.iField =
        (fileLoop nl recs i t outt).2.1.map Snapshot.iField := by
  induction recs with
  | nil =>
    intro i s t outs outt hti htv hout
    rw [fileLoop_nil_eq, fileLoop_nil_eq]
    by_cases hc : (i + 1) % 1000 = 0
    · by_cases h0 : s.tv = 0
      · have h0t : t.tv = 0 := htv ▸ h0
        simp only [hc, h0, h0t, if_true, ite_true]
        exact hout
      · have h0t : ¬t.tv = 0 := htv ▸ h0
        by_cases hn : nlimitHit nl (i + 1) = true <;>
          simp [hc, h0, h0t, hn, stepSnap, hout]
    · by_cases hn : nlimitHit nl (i + 1) = true <;> simp [hc, hn, hout]
  | cons r rest ih =>
    intro i s t outs outt hti htv hout
    rw [fileLoop_cons_eq, fileLoop_cons_eq]
    have hacc := account_congr r
      (s := record_seen s) (t := record_seen t) hti htv
    by_cases hc : (i + 1) % 1000 = 0
    · by_cases h0 : s.tv = 0
      · have h0t : t.tv = 0 := htv ▸ h0
        simp only [hc, h0, h0t, if_true, ite_true]
        exact hout
      · have h0t : ¬t.tv = 0 := htv ▸ h0
        by_cases hn : nlimitHit nl (i + 1) = true
        · simp [hc, h0, h0t, hn, stepSnap, hout]
        · simp only [hc, h0, h0t, hn, if_true, if_false, ite_true, ite_false,
            Bool.false_eq_true]
          exact ih (i + 1) _ _ _ _ hacc.1 hacc.2
            (by simp [stepSnap, hout])
    · by_cases hn : nlimitHit nl (i + 1) = true
      · simp [hc, hn, hout]
      · simp only [hc, hn, if_true, if_false, ite_true, ite_false,
          Bool.false_eq_true]
        exact ih (i + 1) _ _ _ _ hacc.1 hacc.2 hout

lemma cadence_zero (a : Nat) : cadence a 0 = [] := rfl

lemma cadence_succ_pos {a : Nat} (k : Nat) (h : a % 1000 = 0) :
    cadence a (k + 1) = a :: cadence (a + 1) k := by
  simp [cadence, h]

lemma cadence_succ_neg {a : Nat} (k : Nat) (h : ¬a % 1000 = 0) :
    cadence a (k + 1) = cadence (a + 1) k := by
  simp [cadence, h]

/-- Each entered iteration increments `num_records`, so the loop leaves it
strictly larger than it found it. -/
lemma fileLoop_num_ge (nl : Option Nat) (recs : List (String × String)) :
    ∀ (i : Nat) (s : TitvState) (out : List Snapshot),
      s.num_records + 1 ≤ (fileLoop nl recs i s out).1.num_records := by
  induction recs with
  | nil =>
    intro i s out
    rw [fileLoop_nil_eq]
    by_cases hc : (i + 1) % 1000 = 0 <;> by_cases htv : s.tv = 0 <;>
      by_cases hn : nlimitHit nl (i + 1) = true <;>
      simp [hc, htv, hn]
  | cons r rest ih =>
    intro i s out
    have hsnum : (account_rec_native r (record_seen s)).num_records =
        s.num_records + 1 := by
      have h := (account_titv_le r (record_seen s)).2
      simpa using h
    rw [fileLoop_cons_eq]
    by_cases hc : (i + 1) % 1000 = 0
    · by_cases htv : s.tv = 0
      · simp [hc, htv]
      · by_cases hn : nlimitHit nl (i + 1) = true
        · simp [hc, htv, hn]
        · simp only [hc, htv, hn, if_true, if_false, ite_true, ite_false,
            Bool.false_eq_true]
          have h1 := ih (i + 1) (account_rec_native r (record_seen s))
            (out ++ [stepSnap i s])
          omega
    · by_cases hn : nlimitHit nl (i + 1) = true
      · simp [hc, hn]
      · simp only [hc, hn, if_true, if_false, ite_true, ite_false,
          Bool.false_eq_true]
        have h1 := ih (i + 1) (account_rec_native r (record_seen s)) out
        omega

/-- Exact emission: unless the run dies of the `tv = 0` divide-by-zero, the
`num records=` fields the loop appends to its output are precisely the
multiples of 1000 among the per-file iteration counts it executes (the count
of executed iterations being the increase of `num_records`), in order. -/
lemma fileLoop_iField_exact (nl : Option Nat) (recs : List (String × String)) :
    ∀ (i : Nat) (s : TitvState) (out : List Snapshot),
      (fileLoop nl recs i s out).2.2 ≠ some Crash.zeroDivision →
      (fileLoop nl recs i s out).2.1.map Snapshot.iField =
        out.map Snapshot.iField ++
          (cadence (i + 1)
            ((fileLoop nl recs i s out).1.num_records - s.num_records)).map
            some := by
  induction recs with
  | nil =>
    intro i s out hcr
    rw [fileLoop_nil_eq] at hcr ⊢
    by_cases hc : (i + 1) % 1000 = 0
    · by_cases htv : s.tv = 0
      · simp [hc, htv] at hcr
      · have hK : (record_seen s).num_records - s.num_records = 1 := by simp
        by_cases hn : nlimitHit nl (i + 1) = true <;>
          simp only [hc, htv, hn, if_true, if_false, ite_true, ite_false,
            Bool.false_eq_true] <;>
          rw [hK, cadence_succ_pos 0 hc, cadence_zero] <;>
          simp [stepSnap]
    · have hK : (record_seen s).num_records - s.num_records = 1 := by simp
      by_cases hn : nlimitHit nl (i + 1) = true <;>
        simp only [hc, hn, if_true, if_false, ite_true, ite_false,
          Bool.false_eq_true] <;>
        rw [hK, cadence_succ_neg 0 hc, cadence_zero] <;>
        simp
  | cons r rest ih =>
    intro i s out hcr
    have hsnum : (account_rec_native r (record_seen s)).num_records =
        s.num_records + 1 := by
      have h := (account_titv_le r (record_seen s)).2
      simpa using h
    rw [fileLoop_cons_eq] at hcr ⊢
    by_cases hc : (i + 1) % 1000 = 0
    · by_cases htv : s.tv = 0
      · simp [hc, htv] at hcr
      · by_cases hn : nlimitHit nl (i + 1) = true
        · have hK : (record_seen s).num_records - s.num_records = 1 := by simp
          simp only [hc, htv, hn, if_true, if_false, ite_true, ite_false,
            Bool.false_eq_true]
          rw [hK, cadence_succ_pos 0 hc, cadence_zero]
          simp [stepSnap]
        · simp only [hc, htv, hn, if_true, if_false, ite_true, ite_false,
            Bool.false_eq_true] at hcr ⊢
          have hih := ih (i + 1) (account_rec_native r (record_seen s))
            (out ++ [stepSnap i s]) hcr
          have hge := fileLoop_num_ge nl rest (i + 1)
            (account_rec_native r (record_seen s)) (out ++ [stepSnap i s])
          rw [hsnum] at hge hih
          rw [hih]
          have hK : (fileLoop nl rest (i + 1)
                (account_rec_native r (record_seen s))
                (out ++ [stepSnap i s])).1.num_records - s.num_records =
              ((fileLoop nl rest (i + 1)
                (account_rec_native r (record_seen s))
                (out ++ [stepSnap i s])).1.num_records -
                (s.num_records + 1)) + 1 := by omega
          rw [hK, cadence_succ_pos _ hc]
          simp [stepSnap]
    · by_cases hn : nlimitHit nl (i + 1) = true
      · have hK : (record_seen s).num_records - s.num_records = 1 := by simp
        simp only [hc, hn, if_true, if_false, ite_true, ite_false,
          Bool.false_eq_true]
        rw [hK, cadence_succ_neg 0 hc, cadence_zero]
        simp
      · simp only [hc, hn, if_true, if_false, ite_true, ite_false,
          Bool.false_eq_true] at hcr ⊢
        have hih := ih (i + 1) (account_rec_native r (record_seen s)) out hcr
        have hge := fileLoop_num_ge nl rest (i + 1)
          (account_rec_native r (record_seen s)) out
        rw [hsnum] at hge hih
        rw [hih]
        have hK : (fileLoop nl rest (i + 1)
              (account_rec_native r (record_seen s)) out).1.num_records -
              s.num_records =
            ((fileLoop nl rest (i + 1)
              (account_rec_native r (record_seen s)) out).1.num_records -
              (s.num_records + 1)) + 1 := by omega
        rw [hK, cadence_succ_neg _ hc]

/-! ## Claim theorems -/

/-- Claim C1: for every pair of distinct single characters drawn from
{A,C,G,T}, `classify` returns `Transition` exactly for the pairs of the
section 4.1 table (A-G, G-A, C-T, T-C) and `Transversion` for every other
pair — so exactly one of the two — and the classification is symmetric in its
two arguments. -/
theorem classify_table_correct :
    ∀ r ∈ acgt, ∀ a ∈ acgt, r ≠ a →
      (classify (String.mk [r]) (String.mk [a]) =
        (if (r, a) ∈ transitionPairs then SubstKind.Transition
         else SubstKind.Transversion)) ∧
      classify (String.mk [r]) (String.mk [a]) =
        classify (String.mk [a]) (String.mk [r]) := by
  decide

theorem classify_table_correct_witness :
    ('A' ∈ acgt ∧ 'G' ∈ acgt ∧ 'A' ≠ 'G') ∧
      ((classify (String.mk ['A']) (String.mk ['G']) =
        (if (('A' : Char), ('G' : Char)) ∈ transitionPairs then
          SubstKind.Transition else SubstKind.Transversion)) ∧
      classify (String.mk ['A']) (String.mk ['G']) =
        classify (String.mk ['G']) (String.mk ['A'])) :=
  ⟨by decide, classify_table_correct 'A' (by decide) 'G' (by decide) (by decide)⟩

/-- Claim C9: a record whose alleles are equal strings, or not both of length
one, or not both standard nucleotide characters (case-insensitive), is
classified `NotApplicable`, and accounting it leaves the state — in
particular `ti` and `tv` — untouched. -/
theorem classify_degenerate_notApplicable (ref alt : String)
    (h : ref = alt ∨ ref.length ≠ 1 ∨ alt.length ≠ 1 ∨
      (∃ c ∈ ref.toList, ¬ isACGT c) ∨ (∃ c ∈ alt.toList, ¬ isACGT c)) :
    classify ref alt = SubstKind.NotApplicable ∧
      ∀ s : TitvState, account_rec_native (ref, alt) s = s := by
  have hlen : ∀ u : String, u.length = u.toList.length := fun u => rfl
  have hcl : classify ref alt = SubstKind.NotApplicable := by
    rcases hr : ref.toList with _ | ⟨r, rs⟩
    · have hrd : ref.data = [] := hr
      simp [classify, hrd]
    · rcases rs with _ | ⟨r2, rs2⟩
      · have hrd : ref.data = [r] := hr
        rcases ha : alt.toList with _ | ⟨a, as⟩
        · have had : alt.data = [] := ha
          simp [classify, hrd, had]
        · rcases as with _ | ⟨a2, as2⟩
          · have had : alt.data = [a] := ha
            rcases h with h | h | h | ⟨c, hc, hnc⟩ | ⟨c, hc, hnc⟩
            · subst h
              rw [hr] at ha
              simp only [List.cons.injEq, and_true] at ha
              subst ha
              simp [classify, hrd]
            · exfalso; apply h; rw [hlen ref, hr]; rfl
            · exfalso; apply h; rw [hlen alt, ha]; rfl
            · rw [hr] at hc
              simp only [List.mem_singleton] at hc
              subst hc
              simp [classify, hrd, had, hnc]
            · rw [ha] at hc
              simp only [List.mem_singleton] at hc
              subst hc
              simp [classify, hrd, had, hnc]
          · have had : alt.data = a :: a2 :: as2 := ha
            simp [classify, hrd, had]
      · have hrd : ref.data = r :: r2 :: rs2 := hr
        simp [classify, hrd]
  exact ⟨hcl, fun s => by simp [account_rec_native, hcl]⟩

theorem classify_degenerate_notApplicable_witness :
    (("AT" : String) = "A" ∨ ("AT" : String).length ≠ 1 ∨
      ("A" : String).length ≠ 1 ∨
      (∃ c ∈ ("AT" : String).toList, ¬ isACGT c) ∨
      (∃ c ∈ ("A" : String).toList, ¬ isACGT c)) ∧
    classify "AT" "A" = SubstKind.NotApplicable ∧
      account_rec_native ("AT", "A") ⟨3, 4, 9⟩ = ⟨3, 4, 9⟩ :=
  ⟨by decide,
   (classify_degenerate_notApplicable "AT" "A" (by decide)).1,
   (classify_degenerate_notApplicable "AT" "A" (by decide)).2 ⟨3, 4, 9⟩⟩

/-- Claim C2: `ti + tv ≤ num_records` is an invariant — it is preserved by
the file loop from any state satisfying it (so across any sequence of
record-processing steps), and it holds of the final state of every whole run
from the zero-initialized counters, whatever the files, limit and exit mode. -/
theorem titv_le_num_records :
    (∀ (nl : Option Nat) (recs : List (String × String)) (i : Nat)
        (s : TitvState) (out : List Snapshot),
      s.ti + s.tv ≤ s.num_records →
      (fileLoop nl recs i s out).1.ti + (fileLoop nl recs i s out).1.tv ≤
        (fileLoop nl recs i s out).1.num_records) ∧
    (∀ (nl : Option Nat) (files : List (List (String × String))),
      (main_run nl files).1.ti + (main_run nl files).1.tv ≤
        (main_run nl files).1.num_records) := by
  constructor
  · exact fun nl recs i s out h => fileLoop_inv nl recs i s out h
  · intro nl files
    have h1 := runFiles_inv nl files initState (by decide)
    rcases hr : runFiles nl files initState with ⟨s, out, c⟩
    rw [hr] at h1
    simp only at h1
    unfold main_run
    rw [hr]
    cases c
    · by_cases htv : s.tv = 0
      · simp [print_totals, htv]
        omega
      · simp [print_totals_ok none s htv]
        exact h1
    · simpa using h1

theorem titv_le_num_records_witness :
    (initState.ti + initState.tv ≤ initState.num_records) ∧
    ((fileLoop none [("A", "G")] 0 initState []).1.ti +
        (fileLoop none [("A", "G")] 0 initState []).1.tv ≤
      (fileLoop none [("A", "G")] 0 initState []).1.num_records) :=
  ⟨by decide, titv_le_num_records.1 none [("A", "G")] 0 initState [] (by decide)⟩

/-- Claim C4 is violated by the code (code bug): a one-record file processed
to end of stream, with no limit, ends with `num_records = 2`, not 1: the loop
increments `num_records` at the top of its final iteration, the one in which
`vcf_reader.next()` raises `StopIteration`.  The second half of the claim is
respected on this input (`ti + tv = 1`, the one applicable record), but
`total_records` differs from the record count. -/
theorem num_records_overcounts_at_eof :
    process_file none [("A", "G")] initState =
      (⟨1, 0, 2⟩, [], some Crash.stopIteration) ∧
    (⟨1, 0, 2⟩ : TitvState).num_records ≠ [("A", "G")].length := by
  constructor
  · decide
  · decide

/-- Claim C6 is violated by the code (code bug): with `--nlimit 2` on a file
of three applicable records, the `i >= nlimit` check fires at the top of
iteration 2, before `vcf_reader.next()` is called, so only one record — not
two — is fetched and classified (`ti + tv = 1`). -/
theorem nlimit_break_skips_last_record :
    process_file (some 2) [("A", "G"), ("C", "T"), ("A", "C")] initState =
      (⟨1, 0, 2⟩, [], none) ∧
    (⟨1, 0, 2⟩ : TitvState).ti + (⟨1, 0, 2⟩ : TitvState).tv ≠ 2 := by
  constructor
  · decide
  · decide

/-- Claim C5 is violated by the code (code bug): on a run whose single file
reaches end of stream (no `--nlimit`), the uncaught `StopIteration` aborts
the process before the final `print_totals(None)`: the run crashes and the
output contains no line at all, in particular no final summary line (a line
whose `num records=` field is absent). -/
theorem no_final_summary_when_stream_ends :
    main_run none [[("A", "G")]] =
      (⟨1, 0, 2⟩, [], some Crash.stopIteration) ∧
    ((main_run none [[("A", "G")]]).2.1.countP
      (fun sn => decide (sn.iField = none))) ≠ 1 := by
  constructor
  · decide
  · decide

/-- Claim C3 is violated by the code (code bug): when `tv = 0` at snapshot
time (here: a file holding a single transition SNP, `--nlimit 2`, so the
final summary runs on `ti = 1, tv = 0`), `print_totals` computes
`float(ti)/float(tv)` and raises `ZeroDivisionError`, aborting the whole run
instead of reporting the ratio as undefined.  `ti` does equal the SNP count
(1) as the claim states; it is the crash-free reporting that fails. -/
theorem snapshot_crashes_when_tv_zero :
    main_run (some 2) [[("A", "G")]] =
      (⟨1, 0, 2⟩, [], some Crash.zeroDivision) ∧
    print_totals none ⟨1, 0, 2⟩ = Except.error () := by
  constructor
  · decide
  · rfl

set_option maxRecDepth 200000 in
/-- Claim C7 is violated by the code (code bug): on the 1000-record file
alternating (A,G) and (G,T), the progress line of iteration 1000 is printed
*before* record 1000 is fetched and classified, so it reports
`ti=500, tv=499` and a ti/tv value of 500/499, not the claimed
`ti=500, tv=500, ratio=1.0`.  (Record 1000 is classified right after the
print: the state then reaches ti=500, tv=500, and the loop dies of
`StopIteration` on iteration 1001.) -/
theorem snapshot_at_1000_misses_record_1000 :
    (process_file none (altRecs 1000) initState).1 = ⟨500, 500, 1001⟩ ∧
    (process_file none (altRecs 1000) initState).2.1.map snapView =
      [(some 1000, 1000, 500, 499)] ∧
    (∀ sn ∈ (process_file none (altRecs 1000) initState).2.1,
      sn.ratioVal = (500 : ℚ) / 499) ∧
    (500 : ℚ) / 499 ≠ 1 := by
  refine ⟨by decide, by decide, ?_, by norm_num⟩
  intro sn hsn
  rcases fileLoop_out_spec none (altRecs 1000) 0 initState [] sn hsn with
    h | ⟨j, _, _, _, hratio⟩
  · simp at h
  · have h2 : (process_file none (altRecs 1000) initState).2.1.map snapView =
        [(some 1000, 1000, 500, 499)] := by decide
    have h3 : snapView sn ∈
        [(some 1000, (1000 : Nat), (500 : Nat), (499 : Nat))] :=
      h2 ▸ List.mem_map_of_mem snapView hsn
    simp only [snapView, List.mem_singleton, Prod.mk.injEq] at h3
    obtain ⟨_, _, hti, htv⟩ := h3
    rw [hratio, hti, htv]
    norm_num

set_option maxRecDepth 200000 in
/-- Claim C8 is false of the code: the cadence counter `i` and the printed
`num records=` field are per-file, not cumulative.  Two files of 1000
records each under `--nlimit 1001` take 1001 loop iterations apiece (2002
cumulative); the claim predicts the progress line emitted during the second
file — when the cumulative iteration count reaches 2000 — to carry
`num records=2000`, but the code prints `num records=1000` again, `i` having
been reset at the start of the file. -/
theorem progress_iField_not_cumulative :
    (main_run (some 1001) [altRecs 1000, altRecs 1000]).2.1.map
      Snapshot.iField = [some 1000, some 1000, none] ∧
    [some (1000 : Nat), some 1000, none] ≠ [some 1000, some 2000, none] := by
  refine ⟨by decide, by decide⟩

/-- Claim C8 (amended): unless the run aborts with the `tv = 0`
divide-by-zero, a progress line is printed at exactly the loop iterations
whose *per-file* counter is a positive multiple of 1000 — one line per such
iteration, carrying that per-file counter in its `num records=` field, in
order (`cadence 1 k` lists the multiples of 1000 among the `k` executed
iterations, `k` being the increase of `num_records`) — and the sequence of
those fields is independent of `num_records`, i.e. of how many records
earlier files contributed, given the same record stream, limit and starting
ti/tv counters.  Only the `tot=` field is cumulative across files. -/
theorem progress_cadence_per_file (nl : Option Nat)
    (recs : List (String × String)) (s t : TitvState)
    (hti : s.ti = t.ti) (htv : s.tv = t.tv)
    (hcr : (process_file nl recs s).2.2 ≠ some Crash.zeroDivision) :
    (process_file nl recs s).2.1.map Snapshot.iField =
      (cadence 1
        ((process_file nl recs s).1.num_records - s.num_records)).map some ∧
    (process_file nl recs s).2.1.map Snapshot.iField =
      (process_file nl recs t).2.1.map Snapshot.iField ∧
    ∀ sn ∈ (process_file nl recs s).2.1,
      ∃ j, 0 < j ∧ j % 1000 = 0 ∧ sn.iField = some j := by
  refine ⟨?_, ?_, ?_⟩
  · have h := fileLoop_iField_exact nl recs 0 s [] hcr
    simpa [process_file] using h
  · exact fileLoop_congr nl recs 0 s t [] [] hti htv rfl
  · intro sn hsn
    rcases fileLoop_out_spec nl recs 0 s [] sn hsn with h | ⟨j, h1, h2, h3, _⟩
    · simp at h
    · exact ⟨j, h1, h2, h3⟩

set_option maxRecDepth 200000 in
theorem progress_cadence_per_file_witness :
    (initState.ti = (⟨0, 0, 7⟩ : TitvState).ti ∧
      initState.tv = (⟨0, 0, 7⟩ : TitvState).tv ∧
      (process_file (some 1001) (altRecs 1000) initState).2.2 ≠
        some Crash.zeroDivision) ∧
    ((process_file (some 1001) (altRecs 1000) initState).2.1.map
        Snapshot.iField =
      (cadence 1
        ((process_file (some 1001) (altRecs 1000) initState).1.num_records -
          initState.num_records)).map some ∧
      (process_file (some 1001) (altRecs 1000) initState).2.1.map
        Snapshot.iField =
      (process_file (some 1001) (altRecs 1000) ⟨0, 0, 7⟩).2.1.map
        Snapshot.iField ∧
      ∀ sn ∈ (process_file (some 1001) (altRecs 1000) initState).2.1,
        ∃ j, 0 < j ∧ j % 1000 = 0 ∧ sn.iField = some j) ∧
    (process_file (some 1001) (altRecs 1000) initState).2.1.map
      Snapshot.iField = [some 1000] :=
  ⟨⟨rfl, rfl, by decide⟩,
   progress_cadence_per_file (some 1001) (altRecs 1000) initState ⟨0, 0, 7⟩
     rfl rfl (by decide),
   by decide⟩

/-- Claim C10: taking a snapshot does not mutate the counters.  When
`tv ≠ 0`, `print_totals` succeeds leaving the state it read, and a second
call on that state returns the very same line and the same unchanged
`num_records`, `ti` and `tv`. -/
theorem snapshot_pure_idempotent (i : Option Nat) (s : TitvState)
    (h : s.tv ≠ 0) :
    ∃ snap, print_totals i s = Except.ok (s, snap) ∧
      ∀ s1 sn1, print_totals i s = Except.ok (s1, sn1) →
        print_totals i s1 = Except.ok (s1, sn1) ∧
        s1.num_records = s.num_records ∧ s1.ti = s.ti ∧ s1.tv = s.tv := by
  refine ⟨_, print_totals_ok i s h, ?_⟩
  intro s1 sn1 h1
  rw [print_totals_ok i s h] at h1
  simp only [Except.ok.injEq, Prod.mk.injEq] at h1
  obtain ⟨hs, hsn⟩ := h1
  subst hs
  subst hsn
  exact ⟨print_totals_ok i s h, rfl, rfl, rfl⟩

theorem snapshot_pure_idempotent_witness :
    ((⟨1, 1, 2⟩ : TitvState).tv ≠ 0) ∧
    (∃ snap, print_totals none ⟨1, 1, 2⟩ = Except.ok (⟨1, 1, 2⟩, snap) ∧
      ∀ s1 sn1, print_totals none ⟨1, 1, 2⟩ = Except.ok (s1, sn1) →
        print_totals none s1 = Except.ok (s1, sn1) ∧
        s1.num_records = (⟨1, 1, 2⟩ : TitvState).num_records ∧
        s1.ti = (⟨1, 1, 2⟩ : TitvState).ti ∧
        s1.tv = (⟨1, 1, 2⟩ : TitvState).tv) :=
  ⟨by decide, snapshot_pure_idempotent none ⟨1, 1, 2⟩ (by decide)⟩

end Titv
